import Mathlib

/-!
Shallow embedding of the MeBus typed message bus (src/index.ts and the
io-ts variant in src/unnamed/part_000).

The bus holds an immutable name-to-schema registry.  `subscribe` registers
a filter/validate/forward closure on the host's global event target
(`window.addEventListener`) guarded by a per-subscription `AbortController`,
and returns a closure that aborts it.  `publish` validates the payload
against the registry schema and, on success, dispatches a `CustomEvent`
carrying the ORIGINAL payload in its `detail` field
(`window.dispatchEvent(new CustomEvent(type, { detail: payload }))`,
src/index.ts line 86).

The host event target is modelled as an explicit listener registry
(`WindowState`); dispatch returns the ordered list of handler invocations
(which subscriber handler ran, with which decoded value), or the message of
the first listener exception.  Schemas are modelled by their two-outcome
`safeParse` capability: accepted-with-decoded-value or
rejected-with-issue-list.
-/

namespace MeBusModel

/-- Payload values moved through the bus (a JSON-like universe rich enough
for the concrete schemas of the repository's example code). -/
inductive Value where
  | vNull : Value
  | vBool : Bool → Value
  | vNum : Int → Value
  | vStr : String → Value
  | vObj : List (String × Value) → Value

/-- One validation issue, as exposed by zod's `error.errors` entries: the
bus only ever reads its `message` field (src/index.ts lines 58, 84). -/
structure ZodIssue where
  message : String
deriving DecidableEq

/-- Outcome of `schema.safeParse(payload)`: success with the decoded data,
or failure with the list of issues. -/
inductive ParseResult where
  | success : Value → ParseResult
  | failure : List ZodIssue → ParseResult

/-- A schema descriptor, reduced to the single capability the bus consumes
(`z.Schema.safeParse`, resp. io-ts `decode`). -/
structure Schema where
  safeParse : Value → ParseResult

/-- Events delivered by the host target: a `CustomEvent` carrying a
`detail` payload, or any other `Event` (for which `isCustomEvent`,
src/index.ts lines 5-7, is false). -/
inductive Event where
  | base : Event
  | custom : Value → Event

/-- `isCustomEvent` type guard (src/index.ts lines 5-7). -/
def isCustomEvent : Event → Bool
  | Event.base => false
  | Event.custom _ => true

/-- `detail` of a `CustomEvent`; arbitrary on a plain `Event` (the source
only reads it after the `isCustomEvent` guard). -/
def Event.detail : Event → Option Value
  | Event.base => none
  | Event.custom d => some d

/-- One listener registration on the window event target: the
`AbortController` token guarding it, the event type it was added for, the
schema captured by the subscribe closure, and an identifier for the
subscriber's handler function. -/
structure Listener where
  token : Nat
  type : String
  schema : Schema
  handlerId : Nat

/-- The host event target's state: current listeners in registration
order, plus a supply of fresh `AbortController` tokens. -/
structure WindowState where
  listeners : List Listener
  nextToken : Nat

/-- Errors thrown by the bus, tagged by the spec's taxonomy; each carries
the thrown `Error`'s message. -/
inductive MeBusError where
  | schemaNotFound : String → MeBusError
  | validationError : String → MeBusError
  | listenerError : String → MeBusError
deriving DecidableEq

/-- One observed handler invocation during a dispatch: which registration
fired (its token), which subscriber handler ran, and the decoded value it
received. -/
structure Invocation where
  token : Nat
  handlerId : Nat
  data : Value

/-- Body of the closure `subscribe` registers on the window
(src/index.ts lines 52-62): a non-`CustomEvent` returns silently; a
`CustomEvent` has its `detail` run through `schema.safeParse`; rejection
throws the newline-joined issue messages; acceptance forwards the decoded
data to the handler.  `.ok none` = returned without invoking the handler;
`.ok (some d)` = handler invoked with `d`; `.error m` = threw `Error(m)`. -/
def listenerBody (schema : Schema) (e : Event) : Except String (Option Value) :=
  match e with
  | Event.base => Except.ok none
  | Event.custom detail =>
      match schema.safeParse detail with
      | ParseResult.failure errs =>
          Except.error (String.intercalate "\n" (errs.map (·.message)))
      | ParseResult.success data => Except.ok (some data)

/-- Synchronous fan-out of `window.dispatchEvent` over the listeners
registered for `ty`, in registration order; a listener exception
propagates and stops the dispatch (the bus installs no handler for it). -/
def dispatchList : List Listener → String → Event → Except String (List Invocation)
  | [], _, _ => Except.ok []
  | l :: rest, ty, e =>
      if l.type = ty then
        match listenerBody l.schema e with
        | Except.error msg => Except.error msg
        | Except.ok none => dispatchList rest ty e
        | Except.ok (some data) =>
            (dispatchList rest ty e).map
              (fun tr => { token := l.token, handlerId := l.handlerId, data := data } :: tr)
      else dispatchList rest ty e

/-- `window.dispatchEvent` on the modelled window state. -/
def dispatchEvent (w : WindowState) (ty : String) (e : Event) :
    Except String (List Invocation) :=
  dispatchList w.listeners ty e

/-- The bus: the private `eventSchema` registry stored at construction
(src/index.ts lines 26-34), with `Record` lookup returning `none` for an
absent key (the source's falsy check `if (!schema)`). -/
structure MeBus where
  eventSchema : String → Option Schema

/-- `MeBus.subscribe` (src/index.ts lines 42-67): look the schema up,
throw `SchemaNotFoundError` when absent; otherwise register the
filter/validate/forward closure with a fresh `AbortController` token and
return the new window state together with that token (the returned
unsubscribe closure is `() => abortController.abort()`, modelled by
`unsubscribe` below applied to the token). -/
def MeBus.subscribe (bus : MeBus) (w : WindowState) (ty : String) (handlerId : Nat) :
    Except MeBusError (WindowState × Nat) :=
  match bus.eventSchema ty with
  | none => Except.error (MeBusError.schemaNotFound ("[MeBus] No schema found for event: " ++ ty))
  | some schema =>
      Except.ok
        ({ listeners := w.listeners ++
              [{ token := w.nextToken, type := ty, schema := schema, handlerId := handlerId }],
           nextToken := w.nextToken + 1 },
         w.nextToken)

/-- Effect of invoking the unsubscribe closure returned by `subscribe`
(src/index.ts line 66): `abortController.abort()` removes the listener
registered with that controller's signal; aborting an already-aborted
controller is a no-op. -/
def unsubscribe (w : WindowState) (token : Nat) : WindowState :=
  { w with listeners := w.listeners.filter (fun l => l.token != token) }

/-- `MeBus.publish` (src/index.ts lines 77-87): look the schema up, throw
`SchemaNotFoundError` when absent; `safeParse` the payload, throw the
newline-joined issue messages on rejection; otherwise dispatch
`new CustomEvent(type, { detail: payload })` — note the ORIGINAL payload,
not `validation.data` — and return the dispatched envelope detail together
with the invocation trace. -/
def MeBus.publish (bus : MeBus) (w : WindowState) (ty : String) (payload : Value) :
    Except MeBusError (Value × List Invocation) :=
  match bus.eventSchema ty with
  | none => Except.error (MeBusError.schemaNotFound ("[MeBus] No schema found for event: " ++ ty))
  | some schema =>
      match schema.safeParse payload with
      | ParseResult.failure errs =>
          Except.error (MeBusError.validationError
            (String.intercalate "\n" (errs.map (·.message))))
      | ParseResult.success _ =>
          match dispatchEvent w ty (Event.custom payload) with
          | Except.error msg => Except.error (MeBusError.listenerError msg)
          | Except.ok tr => Except.ok (payload, tr)

/-- A call made against the bus's public surface. -/
inductive BusOp where
  | sub : String → Nat → BusOp
  | pub : String → Value → BusOp
  | unsub : Nat → BusOp

/-- The bus together with the host window state. -/
structure FullState where
  bus : MeBus
  window : WindowState

/-- Run one public call against the full state (a throwing call leaves the
state as it was). -/
def stepOp (s : FullState) (op : BusOp) : FullState :=
  match op with
  | BusOp.sub ty hid =>
      match s.bus.subscribe s.window ty hid with
      | Except.ok (w1, _) => { bus := s.bus, window := w1 }
      | Except.error _ => s
  | BusOp.pub ty v =>
      match s.bus.publish s.window ty v with
      | _ => s
  | BusOp.unsub tok => { bus := s.bus, window := unsubscribe s.window tok }

/-- Run a sequence of public calls. -/
def runOps (s : FullState) : List BusOp → FullState
  | [] => s
  | op :: ops => runOps (stepOp s op) ops

/-! ### Concrete fixtures -/

/-- Concrete schema for the spec's `{ order: validates {id: number} }`
scenario: accepts exactly objects of shape `{id : number}`, decoding to
the same object, and rejects anything else with a type-mismatch issue. -/
def orderSchema : Schema where
  safeParse := fun v =>
    match v with
    | Value.vObj [("id", Value.vNum k)] =>
        ParseResult.success (Value.vObj [("id", Value.vNum k)])
    | _ => ParseResult.failure [{ message := "Expected number, received string" }]

/-- A schema whose decoded value differs from the accepted input (as a zod
`transform` or `coerce` schema produces): accepts everything, decoding to
the number `42`. -/
def stampSchema : Schema where
  safeParse := fun _ => ParseResult.success (Value.vNum 42)

/-- Registry `{ order: orderSchema, stamp: stampSchema }`. -/
def demoBus : MeBus where
  eventSchema := fun n =>
    if n = "order" then some orderSchema
    else if n = "stamp" then some stampSchema
    else none

/-- A window with no listeners. -/
def emptyWindow : WindowState where
  listeners := []
  nextToken := 0

/-- A window with two handlers subscribed to `"order"` (tokens 0 and 1,
handler ids 1 and 2, registered in that order) and one handler subscribed
to `"stamp"` (token 2, handler id 3). -/
def demoWindow : WindowState where
  listeners :=
    [ { token := 0, type := "order", schema := orderSchema, handlerId := 1 },
      { token := 1, type := "order", schema := orderSchema, handlerId := 2 },
      { token := 2, type := "stamp", schema := stampSchema, handlerId := 3 } ]
  nextToken := 3

/-- The payload `{id: 1}` of the spec's concrete scenario. -/
def orderPayload : Value := Value.vObj [("id", Value.vNum 1)]

/-- The demo window after one further subscription to `"order"` (token 3,
handler id 9), as `subscribe` produces it. -/
def subWindow : WindowState where
  listeners := demoWindow.listeners ++
    [{ token := 3, type := "order", schema := orderSchema, handlerId := 9 }]
  nextToken := 4

/-! ### Dispatch lemmas -/

/-- When every listener for `ty` accepts `v` with decoded value `d`, the
dispatch succeeds and invokes exactly the listeners for `ty`, in
registration order, each once with `d`. -/
theorem dispatchList_all_accept (ls : List Listener) (ty : String) (v d : Value)
    (h : ∀ l ∈ ls, l.type = ty → l.schema.safeParse v = ParseResult.success d) :
    dispatchList ls ty (Event.custom v) =
      Except.ok ((ls.filter (fun l => l.type == ty)).map
        (fun l => { token := l.token, handlerId := l.handlerId, data := d })) := by
  induction ls with
  | nil => rfl
  | cons l rest ih =>
      have ihr := ih (fun x hx hty => h x (List.mem_cons_of_mem l hx) hty)
      by_cases hty : l.type = ty
      · have hp : l.schema.safeParse v = ParseResult.success d := h l (List.mem_cons_self l rest) hty
        simp [dispatchList, hty, listenerBody, hp, ihr, List.filter_cons, Except.map]
      · simp [dispatchList, hty, ihr, List.filter_cons]

/-- Every invocation in a successful dispatch comes from a listener that
was registered (for the dispatched type) at dispatch time. -/
theorem dispatchList_mem (ls : List Listener) (ty : String) (e : Event)
    (tr : List Invocation) (h : dispatchList ls ty e = Except.ok tr) :
    ∀ inv ∈ tr, ∃ l ∈ ls, l.token = inv.token ∧ l.handlerId = inv.handlerId ∧ l.type = ty := by
  induction ls generalizing tr with
  | nil =>
      simp only [dispatchList, Except.ok.injEq] at h
      subst h; intro inv hinv; cases hinv
  | cons l rest ih =>
      simp only [dispatchList] at h
      by_cases hty : l.type = ty
      · rw [if_pos hty] at h
        cases hb : listenerBody l.schema e with
        | error msg => rw [hb] at h; cases h
        | ok od =>
            cases od with
            | none =>
                rw [hb] at h
                intro inv hinv
                obtain ⟨x, hx, hxs⟩ := ih tr h inv hinv
                exact ⟨x, List.mem_cons_of_mem l hx, hxs⟩
            | some data =>
                rw [hb] at h
                cases hd : dispatchList rest ty e with
                | error msg => rw [hd] at h; cases h
                | ok tr0 =>
                    rw [hd] at h
                    simp only [Except.map, Except.ok.injEq] at h
                    subst h
                    intro inv hinv
                    rcases List.mem_cons.mp hinv with hinv | hinv
                    · subst hinv
                      exact ⟨l, List.mem_cons_self l rest, rfl, rfl, hty⟩
                    · obtain ⟨x, hx, hxs⟩ := ih tr0 hd inv hinv
                      exact ⟨x, List.mem_cons_of_mem l hx, hxs⟩
      · rw [if_neg hty] at h
        intro inv hinv
        obtain ⟨x, hx, hxs⟩ := ih tr h inv hinv
        exact ⟨x, List.mem_cons_of_mem l hx, hxs⟩

/-- Removing the listeners guarded by token `t` from a dispatch that
succeeded removes exactly the invocations carrying token `t` from its
trace: all other listeners fire exactly as before. -/
theorem dispatchList_filter_token (ls : List Listener) (ty : String) (e : Event)
    (t : Nat) (tr : List Invocation) (h : dispatchList ls ty e = Except.ok tr) :
    dispatchList (ls.filter (fun l => l.token != t)) ty e =
      Except.ok (tr.filter (fun inv => inv.token != t)) := by
  induction ls generalizing tr with
  | nil =>
      simp only [dispatchList, Except.ok.injEq] at h
      subst h; rfl
  | cons l rest ih =>
      simp only [dispatchList] at h
      by_cases hkeep : (l.token != t) = true
      · have hfc : List.filter (fun l => l.token != t) (l :: rest) =
            l :: List.filter (fun l => l.token != t) rest := by
          simp [List.filter_cons, hkeep]
        rw [hfc]
        by_cases hty : l.type = ty
        · rw [if_pos hty] at h
          cases hb : listenerBody l.schema e with
          | error msg => rw [hb] at h; cases h
          | ok od =>
              cases od with
              | none =>
                  rw [hb] at h
                  simpa [dispatchList, hty, hb] using ih tr h
              | some data =>
                  rw [hb] at h
                  cases hd : dispatchList rest ty e with
                  | error msg => rw [hd] at h; cases h
                  | ok tr0 =>
                      rw [hd] at h
                      simp only [Except.map, Except.ok.injEq] at h
                      subst h
                      simp [dispatchList, hty, hb, ih tr0 hd, Except.map,
                        List.filter_cons, hkeep]
        · rw [if_neg hty] at h
          simpa [dispatchList, hty] using ih tr h
      · have hk : (l.token != t) = false := by simpa using hkeep
        have hfc : List.filter (fun l => l.token != t) (l :: rest) =
            List.filter (fun l => l.token != t) rest := by
          simp [List.filter_cons, hk]
        rw [hfc]
        by_cases hty : l.type = ty
        · rw [if_pos hty] at h
          cases hb : listenerBody l.schema e with
          | error msg => rw [hb] at h; cases h
          | ok od =>
              cases od with
              | none => rw [hb] at h; exact ih tr h
              | some data =>
                  rw [hb] at h
                  cases hd : dispatchList rest ty e with
                  | error msg => rw [hd] at h; cases h
                  | ok tr0 =>
                      rw [hd] at h
                      simp only [Except.map, Except.ok.injEq] at h
                      subst h
                      simpa [List.filter_cons, hkeep] using ih tr0 hd
        · rw [if_neg hty] at h
          exact ih tr h

/-! ### Claims -/

/-- C1: for every registered event name `n` and payload `v` accepted by
the schema for `n` (decoding to `d`), `publish n v` synchronously invokes
every handler subscribed to `n` at publish time exactly once with the
decoded value `d`, in subscription order, before returning: the result of
`publish` carries the full invocation trace, one entry per currently
registered listener for `n`, in registration order. -/
theorem c1_publish_delivers_decoded_in_order
    (bus : MeBus) (w : WindowState) (n : String) (v d : Value) (schema : Schema)
    (hn : bus.eventSchema n = some schema)
    (hv : schema.safeParse v = ParseResult.success d)
    (hls : ∀ l ∈ w.listeners, l.type = n → l.schema = schema) :
    bus.publish w n v =
      Except.ok (v, (w.listeners.filter (fun l => l.type == n)).map
        (fun l => { token := l.token, handlerId := l.handlerId, data := d })) := by
  have hd := dispatchList_all_accept w.listeners n v d
    (fun l hl hty => by rw [hls l hl hty]; exact hv)
  simp [MeBus.publish, hn, hv, dispatchEvent, hd]

/-- Witness for C1 at the spec's concrete scenario: two handlers on
`"order"`, publish of `{id: 1}` invokes handler 1 then handler 2, each
with the decoded `{id: 1}`. -/
theorem c1_witness :
    demoBus.publish demoWindow "order" orderPayload =
      Except.ok (orderPayload,
        [ { token := 0, handlerId := 1, data := orderPayload },
          { token := 1, handlerId := 2, data := orderPayload } ]) := by
  rw [c1_publish_delivers_decoded_in_order demoBus demoWindow "order"
    orderPayload orderPayload orderSchema rfl rfl ?hls]
  case hls =>
    intro l hl hty
    simp only [demoWindow, List.mem_cons, List.not_mem_nil, or_false] at hl
    rcases hl with rfl | rfl | rfl
    · rfl
    · rfl
    · exact absurd hty (by decide)
  rfl

/-- C2 counterexample: the claim says the broadcast envelope carries the
decoded payload.  With the `stamp` schema, which decodes `null` to the
number `42`, `publish` nevertheless broadcasts an envelope whose `detail`
is the original `null`: the decoded value and the envelope payload
differ. -/
theorem c2_counterexample :
    stampSchema.safeParse Value.vNull = ParseResult.success (Value.vNum 42) ∧
    demoBus.publish emptyWindow "stamp" Value.vNull =
      Except.ok (Value.vNull, []) ∧
    Value.vNull ≠ Value.vNum 42 :=
  ⟨rfl, rfl, fun h => Value.noConfusion h⟩

/-- C2 amended: when `publish(n, v)` validates `v` successfully, the
envelope broadcast on the shared channel carries the ORIGINAL argument
`v`, not the decoded payload; subscribers receive the decoded value only
because each listener re-runs the schema on the envelope's `detail`. -/
theorem c2_envelope_carries_original
    (bus : MeBus) (w : WindowState) (n : String) (v d : Value) (schema : Schema)
    (tr : List Invocation)
    (hn : bus.eventSchema n = some schema)
    (hv : schema.safeParse v = ParseResult.success d)
    (hd : dispatchEvent w n (Event.custom v) = Except.ok tr) :
    bus.publish w n v = Except.ok (v, tr) := by
  simp [MeBus.publish, hn, hv, hd]

/-- Witness for the amended C2: publishing `null` on `"stamp"` (decoded
value `42`) broadcasts the original `null` as the envelope detail. -/
theorem c2_witness :
    demoBus.publish emptyWindow "stamp" Value.vNull =
      Except.ok (Value.vNull, []) :=
  c2_envelope_carries_original demoBus emptyWindow "stamp" Value.vNull
    (Value.vNum 42) stampSchema [] rfl rfl rfl

/-- C3: for a registered name whose schema rejects the payload, `publish`
throws an error whose message is the newline-joined concatenation of the
validation issue messages, and nothing is broadcast: the call returns the
validation error without dispatching, so no listener of any name runs. -/
theorem c3_publish_rejected_throws
    (bus : MeBus) (w : WindowState) (n : String) (v : Value) (schema : Schema)
    (errs : List ZodIssue)
    (hn : bus.eventSchema n = some schema)
    (hv : schema.safeParse v = ParseResult.failure errs) :
    bus.publish w n v =
      Except.error (MeBusError.validationError
        (String.intercalate "\n" (errs.map (·.message)))) := by
  simp [MeBus.publish, hn, hv]

/-- Witness for C3 at the spec's concrete scenario: publishing
`{id: "x"}` on `"order"` throws the validation message and produces no
invocation trace, with listeners present on both names. -/
theorem c3_witness :
    demoBus.publish demoWindow "order" (Value.vObj [("id", Value.vStr "x")]) =
      Except.error (MeBusError.validationError "Expected number, received string") :=
  c3_publish_rejected_throws demoBus demoWindow "order"
    (Value.vObj [("id", Value.vStr "x")]) orderSchema
    [{ message := "Expected number, received string" }] rfl rfl

/-- C4: for a name absent from the registry, both `publish` and
`subscribe` throw `SchemaNotFoundError` (with the source's message,
regardless of payload or handler) and perform no side effect: no new
window state is produced, so no listener is registered, nothing is
dispatched, and no validation runs. -/
theorem c4_unknown_name_throws
    (bus : MeBus) (w : WindowState) (n : String)
    (hn : bus.eventSchema n = none) :
    (∀ v, bus.publish w n v =
        Except.error (MeBusError.schemaNotFound
          ("[MeBus] No schema found for event: " ++ n))) ∧
    (∀ hid, bus.subscribe w n hid =
        Except.error (MeBusError.schemaNotFound
          ("[MeBus] No schema found for event: " ++ n))) := by
  constructor
  · intro v; simp [MeBus.publish, hn]
  · intro hid; simp [MeBus.subscribe, hn]

/-- Witness for C4: `"unknownEvent"` is not registered in the demo bus;
publish and subscribe both throw `SchemaNotFoundError`. -/
theorem c4_witness :
    demoBus.publish demoWindow "unknownEvent" Value.vNull =
      Except.error (MeBusError.schemaNotFound
        "[MeBus] No schema found for event: unknownEvent") ∧
    demoBus.subscribe demoWindow "unknownEvent" 7 =
      Except.error (MeBusError.schemaNotFound
        "[MeBus] No schema found for event: unknownEvent") := by
  have h := c4_unknown_name_throws demoBus demoWindow "unknownEvent" rfl
  exact ⟨h.1 Value.vNull, h.2 7⟩

/-- Inversion of a successful `subscribe`: the registry has a schema for
the name, the returned token is the fresh one, and the new window state
appends exactly one listener carrying that token. -/
theorem subscribe_ok_inv (bus : MeBus) (w : WindowState) (ty : String)
    (hid : Nat) (w1 : WindowState) (tok : Nat)
    (h : bus.subscribe w ty hid = Except.ok (w1, tok)) :
    ∃ schema, bus.eventSchema ty = some schema ∧ tok = w.nextToken ∧
      w1 = { listeners := w.listeners ++
                  [{ token := w.nextToken, type := ty,
                     schema := schema, handlerId := hid }],
             nextToken := w.nextToken + 1 } := by
  unfold MeBus.subscribe at h
  cases hlk : bus.eventSchema ty with
  | none => rw [hlk] at h; cases h
  | some s =>
      rw [hlk] at h
      simp only [Except.ok.injEq, Prod.mk.injEq] at h
      exact ⟨s, rfl, h.2.symm, h.1.symm⟩

/-- Inversion of a successful `publish`: the returned envelope detail is
the original payload, the registry has a schema for the name, that schema
accepted the payload, and the trace is the one the dispatch produced. -/
theorem publish_ok_inv (bus : MeBus) (w : WindowState) (ty : String)
    (v p : Value) (tr : List Invocation)
    (h : bus.publish w ty v = Except.ok (p, tr)) :
    p = v ∧ ∃ schema d, bus.eventSchema ty = some schema ∧
      schema.safeParse v = ParseResult.success d ∧
      dispatchEvent w ty (Event.custom v) = Except.ok tr := by
  cases hlk : bus.eventSchema ty with
  | none => simp only [MeBus.publish, hlk] at h; cases h
  | some s =>
      simp only [MeBus.publish, hlk] at h
      cases hp : s.safeParse v with
      | failure errs => simp only [hp] at h; cases h
      | success d =>
          simp only [hp] at h
          cases hd : dispatchEvent w ty (Event.custom v) with
          | error m => simp only [hd] at h; cases h
          | ok tr0 =>
              simp only [hd, Except.ok.injEq, Prod.mk.injEq] at h
              exact ⟨h.1.symm, s, d, rfl, hp, congrArg Except.ok h.2⟩

/-- C5: after `subscribe(n, h)` returns an unsubscribe function and that
function is invoked, the window's listener list is back to its
pre-subscription contents, and a subsequent `publish(n, v)` never invokes
`h`: no invocation of any later successful publish carries the
subscription's cancellation token. -/
theorem c5_unsubscribe_prevents_delivery
    (bus : MeBus) (w w1 : WindowState) (n : String) (hid tok : Nat)
    (hwf : ∀ l ∈ w.listeners, l.token < w.nextToken)
    (hs : bus.subscribe w n hid = Except.ok (w1, tok)) :
    (unsubscribe w1 tok).listeners = w.listeners ∧
    ∀ v p tr, bus.publish (unsubscribe w1 tok) n v = Except.ok (p, tr) →
      ∀ inv ∈ tr, inv.token ≠ tok := by
  obtain ⟨s, hlk, htok, hw1⟩ := subscribe_ok_inv bus w n hid w1 tok hs
  subst htok
  have hfil : (unsubscribe w1 w.nextToken).listeners = w.listeners := by
    subst hw1
    simp only [unsubscribe, List.filter_append]
    have h1 : w.listeners.filter (fun l => l.token != w.nextToken) = w.listeners :=
      List.filter_eq_self.mpr (fun l hl => by
        simpa using Nat.ne_of_lt (hwf l hl))
    simp [h1]
  refine ⟨hfil, ?_⟩
  intro v p tr hp inv hinv
  obtain ⟨-, s2, d, -, -, hd⟩ :=
    publish_ok_inv bus (unsubscribe w1 w.nextToken) n v p tr hp
  obtain ⟨l, hl, hltok, -, -⟩ :=
    dispatchList_mem (unsubscribe w1 w.nextToken).listeners n
      (Event.custom v) tr hd inv hinv
  rw [hfil] at hl
  have := hwf l hl
  omega

/-- Witness for C5: subscribing handler 9 to `"order"` (token 3) on the
demo window, then unsubscribing, restores the original listener list, and
the invocation `⟨0, 1, orderPayload⟩` observed in a subsequent publish
does not carry token 3. -/
theorem c5_witness :
    (unsubscribe subWindow 3).listeners = demoWindow.listeners ∧
    (0 : Nat) ≠ 3 := by
  have h := c5_unsubscribe_prevents_delivery demoBus demoWindow subWindow
    "order" 9 3
    (by intro l hl
        simp only [demoWindow, List.mem_cons, List.not_mem_nil, or_false] at hl
        rcases hl with rfl | rfl | rfl <;> decide)
    rfl
  refine ⟨h.1, ?_⟩
  exact h.2 orderPayload orderPayload
    [{ token := 0, handlerId := 1, data := orderPayload },
      { token := 1, handlerId := 2, data := orderPayload }] rfl
    { token := 0, handlerId := 1, data := orderPayload } (by simp)

/-- C6: the unsubscribe closure is idempotent: a second (or any later)
invocation throws nothing (it is a total function on window states) and
leaves the window exactly as after the first invocation. -/
theorem c6_unsubscribe_idempotent (w : WindowState) (tok : Nat) :
    unsubscribe (unsubscribe w tok) tok = unsubscribe w tok := by
  simp [unsubscribe, List.filter_filter]

/-- C7: each subscription is guarded by its own fresh cancellation token
(distinct from every existing registration's), and unsubscribing one
token detaches exactly that listener: every other registration, for the
same or a different name, stays registered, and a successful publish
after the unsubscription produces exactly the original trace with that
token's invocations removed. -/
theorem c7_unsubscribe_isolates
    (bus : MeBus) (w w1 : WindowState) (n : String) (hid tok : Nat)
    (hwf : ∀ l ∈ w.listeners, l.token < w.nextToken)
    (hs : bus.subscribe w n hid = Except.ok (w1, tok)) :
    (∀ l ∈ w.listeners, l.token ≠ tok) ∧
    (∀ t l, l ∈ w1.listeners → l.token ≠ t → l ∈ (unsubscribe w1 t).listeners) ∧
    (∀ t m u p tr, bus.publish w1 m u = Except.ok (p, tr) →
      bus.publish (unsubscribe w1 t) m u =
        Except.ok (p, tr.filter (fun inv => inv.token != t))) := by
  obtain ⟨s, hlk, htok, hw1⟩ := subscribe_ok_inv bus w n hid w1 tok hs
  refine ⟨?_, ?_, ?_⟩
  · intro l hl
    subst htok
    exact Nat.ne_of_lt (hwf l hl)
  · intro t l hl hlt
    exact List.mem_filter.mpr ⟨hl, by simpa using hlt⟩
  · intro t m u p tr hp
    obtain ⟨hpu, s2, d, hlk2, hps2, hd⟩ := publish_ok_inv bus w1 m u p tr hp
    have hd2 := dispatchList_filter_token w1.listeners m (Event.custom u) t tr hd
    subst hpu
    simp [MeBus.publish, hlk2, hps2, dispatchEvent, unsubscribe, hd2]

/-- Witness for C7: with handler 9 subscribed to `"order"` (token 3) on
the demo window, unsubscribing token 0 and publishing `{id: 1}` invokes
exactly the surviving `"order"` handlers 2 and 9, in order. -/
theorem c7_witness :
    demoBus.publish (unsubscribe subWindow 0) "order" orderPayload =
      Except.ok (orderPayload,
        [ { token := 1, handlerId := 2, data := orderPayload },
          { token := 3, handlerId := 9, data := orderPayload } ]) := by
  have h := c7_unsubscribe_isolates demoBus demoWindow subWindow "order" 9 3
    (by intro l hl
        simp only [demoWindow, List.mem_cons, List.not_mem_nil, or_false] at hl
        rcases hl with rfl | rfl | rfl <;> decide)
    rfl
  have h3 := h.2.2 0 "order" orderPayload orderPayload
    [ { token := 0, handlerId := 1, data := orderPayload },
      { token := 1, handlerId := 2, data := orderPayload },
      { token := 3, handlerId := 9, data := orderPayload } ] rfl
  simpa using h3

/-- C8: when a notification for a subscribed name carries a payload the
subscriber's schema rejects, the registered listener closure throws an
error whose message is the newline-joined issue messages, without
invoking the subscriber's handler, and the bus does not catch it: the
dispatch containing that listener propagates the same error, whatever
listeners follow. -/
theorem c8_listener_rejection_throws
    (schema : Schema) (v : Value) (errs : List ZodIssue) (l : Listener)
    (rest : List Listener) (n : String)
    (hps : schema.safeParse v = ParseResult.failure errs)
    (hls : l.schema = schema) (hlt : l.type = n) :
    listenerBody schema (Event.custom v) =
      Except.error (String.intercalate "\n" (errs.map (·.message))) ∧
    dispatchList (l :: rest) n (Event.custom v) =
      Except.error (String.intercalate "\n" (errs.map (·.message))) := by
  have hb : listenerBody schema (Event.custom v) =
      Except.error (String.intercalate "\n" (errs.map (·.message))) := by
    simp [listenerBody, hps]
  refine ⟨hb, ?_⟩
  simp [dispatchList, hlt, hls, hb]

/-- Witness for C8: an envelope for `"order"` carrying `"bad"` (rejected
by the order schema) makes the first listener throw the issue message and
the whole dispatch over the demo window's listeners propagate it. -/
theorem c8_witness :
    listenerBody orderSchema (Event.custom (Value.vStr "bad")) =
      Except.error "Expected number, received string" ∧
    dispatchList demoWindow.listeners "order" (Event.custom (Value.vStr "bad")) =
      Except.error "Expected number, received string" := by
  have h := c8_listener_rejection_throws orderSchema (Value.vStr "bad")
    [{ message := "Expected number, received string" }]
    { token := 0, type := "order", schema := orderSchema, handlerId := 1 }
    [ { token := 1, type := "order", schema := orderSchema, handlerId := 2 },
      { token := 2, type := "stamp", schema := stampSchema, handlerId := 3 } ]
    "order" rfl rfl rfl
  exact h

/-- C9: the schema registry stored at construction is never mutated by
the bus: running any sequence of subscribe, publish and unsubscribe calls
leaves the bus's name-to-schema mapping identical to the one supplied to
the constructor. -/
theorem c9_registry_immutable (s : FullState) (ops : List BusOp) :
    (runOps s ops).bus = s.bus := by
  induction ops generalizing s with
  | nil => rfl
  | cons op ops ih =>
      rw [runOps, ih]
      cases op with
      | sub ty hid =>
          simp only [stepOp]
          cases s.bus.subscribe s.window ty hid with
          | ok r => cases r; rfl
          | error e => rfl
      | pub ty v => simp only [stepOp]
      | unsub tok => rfl

/-- C10: a notification delivered on a subscribed name's channel whose
event is not a `CustomEvent` is silently ignored: the listener closure
returns without throwing, without validating and without invoking the
handler, and a whole dispatch of such an event produces no invocation and
no error. -/
theorem c10_non_custom_event_ignored (schema : Schema) (ls : List Listener)
    (n : String) :
    isCustomEvent Event.base = false ∧
    listenerBody schema Event.base = Except.ok none ∧
    dispatchList ls n Event.base = Except.ok [] := by
  refine ⟨rfl, rfl, ?_⟩
  induction ls with
  | nil => rfl
  | cons l rest ih =>
      by_cases h : l.type = n
      · simp [dispatchList, h, listenerBody, ih]
      · simp [dispatchList, h, ih]

end MeBusModel
